import Mathlib

/-!
Shallow embedding of the PeepInMe chatbot core (src/app/lib/chatbot.ts).

Modelling conventions:
* JavaScript IEEE-754 numbers are modelled as rationals (`ℚ`); every numeric
  operation the code performs (add, mul, div, compare) is exact on the inputs
  we reason about.
* `mathjs.norm` computes the L2 norm, a square root.  Square roots of
  rationals are in general irrational, so the norm is modelled with an
  abstract `sqrt : ℚ → ℚ` parameter threaded through the pipeline; every
  theorem below is proved for all `sqrt`, hence in particular for the real
  square root restricted to the values a run reaches.  Concrete witnesses use
  `ratSqrt`, which agrees with the real square root on the perfect squares
  they reach.
* The inference boundary (zero-shot classification, feature extraction) is a
  pair of black-box functions; a raised JS exception is an `Except.error`
  carrying the error text.  `processQuery` additionally returns the trace of
  inference-boundary invocations, as ghost instrumentation of lines 88/93.
* `Math.random()` is modelled as an extra rational parameter `rand`
  available to the run; the source defines `getRandomMessage` over it but
  never calls it.
-/

/-- Interface `ProductEmbedding` (chatbot.ts lines 15-18). -/
structure ProductEmbedding where
  product : String
  embedding : List ℚ
deriving DecidableEq

/-- Location object of a store (chatbot.ts line 23). -/
structure Location where
  province : String
  city : String
deriving DecidableEq

/-- Interface `Store` (chatbot.ts lines 19-28). -/
structure Store where
  id : Int
  name : String
  category : String
  location : Location
  product_embeddings : List ProductEmbedding
  product_types : List String
  hours : String
  contact : String
deriving DecidableEq

/-- Runtime store object flowing through scoring and assembly.  The TS
interface `StoreWithScore extends Store` (lines 29-31) describes the objects
built by the spread on line 112: all `Store` own-properties plus a `score`
own-property.  Because TS subtyping is structural, these objects also inhabit
`Store[]`-typed positions with every property intact, so the model records
the `score` own-property as an `Option`: `none` is a plain catalog store,
`some q` is a store object carrying a `score` property of value `q`. -/
structure StoreWithScore where
  toStore : Store
  score? : Option ℚ
deriving DecidableEq

/-- Reading `.score` on a store object: the value of the property when
present.  Every object the pipeline sorts and filters was built with
`score? = some _`, on those this is exactly the TS `.score` access. -/
def StoreWithScore.score (s : StoreWithScore) : ℚ :=
  s.score?.getD 0

/-- Interface `StoreGroup` (chatbot.ts lines 32-35).  The declared element
type is `Store`, but the objects pushed on line 128 are the scored runtime
objects, hence `List StoreWithScore` here. -/
structure StoreGroup where
  category : String
  stores : List StoreWithScore
deriving DecidableEq

/-- Interface `ChatbotResponse` (chatbot.ts lines 36-39). -/
structure ChatbotResponse where
  introMessage : String
  storeGroups : Option (List StoreGroup) := none
deriving DecidableEq

/-- Output shape of the zero-shot classification call (the `labels` and
`scores` fields used on line 90). -/
structure ZeroShotClassificationOutput where
  labels : List String
  scores : List ℚ
deriving DecidableEq

/-- The dot product `mathjs.dot` of two equal-length vectors (only ever
called on equal-length vectors, line 69). -/
def dotQ (a b : List ℚ) : ℚ :=
  (List.zipWith (· * ·) a b).sum

/-- Function `cosineSimilarity` (chatbot.ts lines 65-76).  An argument value
of `none` models a missing/undefined vector (the `!vecA || !vecB` guard);
`mathjs.norm v` is `sqrt (dotQ v v)`.  The function is total: it never
raises. -/
def cosineSimilarity (sqrt : ℚ → ℚ) (vecA? vecB? : Option (List ℚ)) : ℚ :=
  match vecA?, vecB? with
  | some vecA, some vecB =>
    if vecA.length ≠ vecB.length then 0
    else
      let dotProduct := dotQ vecA vecB
      let normA := sqrt (dotQ vecA vecA)
      let normB := sqrt (dotQ vecB vecB)
      if normA = 0 ∨ normB = 0 then 0
      else dotProduct / (normA * normB)
  | _, _ => 0

/-- JS `new Map(pairs).get k`: the value of the last pair with key `k`,
`none` when no pair has key `k` (later `set`s win). -/
def jsMapGet {α : Type} (pairs : List (String × α)) (k : String) : Option α :=
  (pairs.reverse.find? (fun p => p.1 == k)).map (·.2)

/-- JS `[...new Set(xs)]` (line 85): de-duplication keeping the first
occurrence of each element, in encounter order. -/
def dedupFirst (l : List String) : List String :=
  l.foldl (fun acc x => if x ∈ acc then acc else acc ++ [x]) []

/-- The classifier label set `candidateLabels` (chatbot.ts line 85). -/
def candidateLabels (storesData : List Store) : List String :=
  dedupFirst (storesData.map (·.category))

/-- The pair list `categoryResults.labels.map((label, i) => [label,
categoryResults.scores[i]])` feeding the `categoryScores` map (line 90);
`scores[i]` out of bounds is JS `undefined`, modelled as `none`. -/
def categoryScoresPairs (cr : ZeroShotClassificationOutput) :
    List (String × Option ℚ) :=
  cr.labels.enum.map (fun p => (p.2, cr.scores[p.1]?))

/-- The lookup `categoryScores.get(store.category) || 0` (line 99): absent
key, `undefined` value and value `0` all collapse to `0`. -/
def categoryScoreOf (cr : ZeroShotClassificationOutput) (category : String) : ℚ :=
  ((jsMapGet (categoryScoresPairs cr) category).bind id).getD 0

/-- The loop of chatbot.ts lines 102-108: fold over the product embeddings,
starting from `0` and keeping a strictly greater similarity. -/
def bestProductSimilarity (sqrt : ℚ → ℚ) (queryVector : List ℚ)
    (store : Store) : ℚ :=
  store.product_embeddings.foldl
    (fun best pe =>
      let similarity := cosineSimilarity sqrt (some queryVector) (some pe.embedding)
      if similarity > best then similarity else best)
    0

/-- The body of the `storesData.map` on lines 97-113: score one store. -/
def scoreStore (sqrt : ℚ → ℚ) (cr : ZeroShotClassificationOutput)
    (queryVector : List ℚ) (store : Store) : StoreWithScore :=
  let categoryScore := categoryScoreOf cr store.category
  let finalScore := categoryScore * (1 + bestProductSimilarity sqrt queryVector store)
  ⟨store, some finalScore⟩

/-- The list `scoredStores` (chatbot.ts line 97). -/
def scoredStores (sqrt : ℚ → ℚ) (cr : ZeroShotClassificationOutput)
    (queryVector : List ℚ) (storesData : List Store) : List StoreWithScore :=
  storesData.map (scoreStore sqrt cr queryVector)

/-- The relation the sort comparator `(a, b) => b.score - a.score` (line 118)
establishes: `a` may precede `b` exactly when `a.score ≥ b.score`. -/
def scoreOrder (a b : StoreWithScore) : Prop :=
  b.score ≤ a.score

instance : DecidableRel scoreOrder := fun a b =>
  inferInstanceAs (Decidable (b.score ≤ a.score))

instance : IsTotal StoreWithScore scoreOrder :=
  ⟨fun a b => le_total b.score a.score⟩

instance : IsTrans StoreWithScore scoreOrder :=
  ⟨fun _ _ _ h h2 => le_trans h2 h⟩

/-- The `.sort((a, b) => b.score - a.score)` of line 118.  ECMAScript
requires `Array.prototype.sort` to be stable, and the stable descending
order is unique, so any stable implementation models it; we use insertion
sort. -/
def sortByScoreDesc (l : List StoreWithScore) : List StoreWithScore :=
  l.insertionSort scoreOrder

/-- The survivors of the `score > 0.5` filter (line 117). -/
def survivors (sqrt : ℚ → ℚ) (cr : ZeroShotClassificationOutput)
    (queryVector : List ℚ) (storesData : List Store) : List StoreWithScore :=
  (scoredStores sqrt cr queryVector storesData).filter
    (fun store => decide ((1 : ℚ) / 2 < store.score))

/-- The list `topStores` (chatbot.ts lines 116-119): filter, stable
descending sort, `slice(0, 5)`. -/
def topStores (sqrt : ℚ → ℚ) (cr : ZeroShotClassificationOutput)
    (queryVector : List ℚ) (storesData : List Store) : List StoreWithScore :=
  (sortByScoreDesc (survivors sqrt cr queryVector storesData)).take 5

/-- One iteration of the grouping loop (lines 127-128): append the store to
the group of its category, creating the group at the end on first
encounter.  JS `Map` iterates in key-insertion order, so the insertion-order
association list is the faithful model. -/
def pushToGroup (cat : String) (s : StoreWithScore) :
    List (String × List StoreWithScore) → List (String × List StoreWithScore)
  | [] => [(cat, [s])]
  | (c, ss) :: rest =>
    if c = cat then (c, ss ++ [s]) :: rest else (c, ss) :: pushToGroup cat s rest

/-- The grouping loop of chatbot.ts lines 125-129 over a store list. -/
def groupsOf (l : List StoreWithScore) : List (String × List StoreWithScore) :=
  l.foldl (fun gs s => pushToGroup s.toStore.category s gs) []

/-- The list `finalStoreGroups` (chatbot.ts line 131). -/
def finalStoreGroups (tops : List StoreWithScore) : List StoreGroup :=
  (groupsOf tops).map (fun g => ⟨g.1, g.2⟩)

/-- The validation guard `!query || query.trim() === ''` of chatbot.ts
line 80: true exactly when the query is empty or whitespace-only, i.e. when
trimming leaves the empty string, i.e. when every character is whitespace.
(`String.trim` itself is equivalent but is not kernel-reducible.) -/
def isBlank (query : String) : Bool :=
  query.data.all Char.isWhitespace

/-- The literal of chatbot.ts line 80. -/
def promptMessage : String := "Please ask me something..."

/-- The literal of chatbot.ts line 122. -/
def noMatchMessage : String :=
  "I\x27m sorry, I couldn\x27t find any stores that specifically match your request. Could you try rephrasing?"

/-- The literal of chatbot.ts line 134. -/
def successMessage : String := "Based on your request, I found these highly relevant stores:"

/-- The literal of chatbot.ts line 139. -/
def troubleMessage : String :=
  "I\x27m having a little trouble thinking right now. Please try again."

/-- The two black-box inference capabilities (classifier with
`multi_label: true`, extractor with mean pooling and L2 normalisation); a
raised JS exception is `Except.error` with the error text. -/
structure InferenceOracle where
  classify : String → List String → Except String ZeroShotClassificationOutput
  embed : String → Except String (List ℚ)

/-- Ghost record of one invocation of the inference boundary. -/
inductive InferenceCall where
  | classifyCall (text : String) (labels : List String)
  | embedCall (text : String)
deriving DecidableEq

/-- Helper `getRandomMessage` (chatbot.ts line 62); `Math.random()` is the
parameter `r`, and an out-of-range index yields JS `undefined` (`none`).
Defined by the source but never invoked on any path of `processQuery`. -/
def getRandomMessage (r : ℚ) (messages : List String) : Option String :=
  messages[(r * (messages.length : ℚ)).floor.toNat]?

/-- Function `processQuery` (chatbot.ts lines 79-141).  The first component
is the returned `ChatbotResponse`; the second is the ghost trace of
inference-boundary invocations.  The `rand` parameter is the ambient
`Math.random()` source, which the function never consults.  The `try/catch`
of lines 82-140 is modelled by the `Except` matches: a fault in either
inference call yields the trouble message and is never re-raised (the model
is a total function). -/
def processQuery (sqrt : ℚ → ℚ) (storesData : List Store)
    (oracle : InferenceOracle) (rand : ℚ) (query : String) :
    ChatbotResponse × List InferenceCall :=
  if isBlank query = true then ({ introMessage := promptMessage }, [])
  else
    let labels := candidateLabels storesData
    match oracle.classify query labels with
    | .error _ =>
      ({ introMessage := troubleMessage }, [.classifyCall query labels])
    | .ok categoryResults =>
      match oracle.embed query with
      | .error _ =>
        ({ introMessage := troubleMessage },
         [.classifyCall query labels, .embedCall query])
      | .ok queryVector =>
        let tops := topStores sqrt categoryResults queryVector storesData
        if tops.length = 0 then
          ({ introMessage := noMatchMessage },
           [.classifyCall query labels, .embedCall query])
        else
          ({ introMessage := successMessage,
             storeGroups := some (finalStoreGroups tops) },
           [.classifyCall query labels, .embedCall query])

/-- Modelled from the spec: the classification score aligned with the first
occurrence of the label in the classification output, `0` when the label is
absent (spec section 4.3 step 4). -/
def specCategoryScore : List String → List ℚ → String → ℚ
  | [], _, _ => 0
  | l :: ls, scores, category =>
    if l = category then scores.getD 0 0
    else specCategoryScore ls scores.tail category

/-- Modelled from the spec: the true maximum of a list of similarities, `0`
for the empty list (claim C1: best similarity, with `0` only for a store
without product embeddings). -/
def specBestSimilarity (sims : List ℚ) : ℚ :=
  match sims with
  | [] => 0
  | s :: rest => rest.foldl max s

/-- Square root on ℚ used by concrete witnesses: exact (hence equal to the
real square root) on squares of naturals, which covers every radicand the
witnesses reach.  `natSqrtFold` is a structurally recursive integer square
root (so the kernel can evaluate it; the Batteries `Nat.sqrt` is defined by
well-founded recursion and does not reduce).  The reducibility attribute
below restores the default reducibility of the rational operations, which
Batteries marks irreducible, so that witness runs are kernel-decidable. -/
def natSqrtFold (n : Nat) : Nat :=
  (List.range (n + 1)).foldr (fun k acc => if k * k ≤ n then max k acc else acc) 0

def ratSqrt (q : ℚ) : ℚ :=
  (natSqrtFold q.num.toNat : ℚ)

attribute [local semireducible] Rat.mul Rat.inv Rat.add Rat.sub

/-! Concrete data for witnesses and counterexamples: a small catalog and
fixed inference-boundary outputs.  With query vector `[1, 0]`, the pharmacy
stores have best similarity `1` and the restaurant store `0`, giving
composite scores `9/10 * 2 = 9/5`, `1/20 * 1 = 1/20` and `9/5`. -/

def wStore1 : Store :=
  ⟨1, "Alfa", "pharmacy", ⟨"P", "C"⟩, [⟨"sunscreen", [1, 0]⟩], ["sunscreen"], "9-5", "a"⟩

def wStore2 : Store :=
  ⟨2, "Bravo", "restaurant", ⟨"P", "C"⟩, [⟨"pizza", [0, 1]⟩], ["pizza"], "9-5", "b"⟩

def wStore3 : Store :=
  ⟨3, "Caro", "pharmacy", ⟨"P", "C"⟩, [⟨"cream", [1, 0]⟩], ["cream"], "9-5", "c"⟩

def wCatalog : List Store := [wStore1, wStore2, wStore3]

def wCR : ZeroShotClassificationOutput := ⟨["pharmacy", "restaurant"], [9/10, 1/20]⟩

def wOracle : InferenceOracle := ⟨fun _ _ => .ok wCR, fun _ => .ok [1, 0]⟩

/-- Oracle for which both inference calls raise; the error text plays the
role of an internal fault detail that must not surface. -/
def failOracle : InferenceOracle :=
  ⟨fun _ _ => .error "stack: secret internal detail", fun _ => .error "embed backend down"⟩

/-- Oracle whose classification succeeds and whose embedding raises. -/
def embedFailOracle : InferenceOracle :=
  ⟨fun _ _ => .ok wCR, fun _ => .error "embed backend down"⟩

/-- Oracle with low classification scores: every composite score is at most
`1/5 < 1/2`, so no store survives the filter. -/
def lowOracle : InferenceOracle :=
  ⟨fun _ _ => .ok ⟨["pharmacy", "restaurant"], [1/10, 1/20]⟩, fun _ => .ok [1, 0]⟩

/-- Store whose single product embedding has cosine similarity `-1` with the
query vector `[-1]`: the true maximum similarity is negative. -/
def cexStore : Store := ⟨9, "Neg", "c", ⟨"p", "q"⟩, [⟨"p", [1]⟩], [], "h", "k"⟩

def cexCR : ZeroShotClassificationOutput := ⟨["c"], [1]⟩

def cexOracle : InferenceOracle := ⟨fun _ _ => .ok cexCR, fun _ => .ok [-1]⟩

/-! Helper lemmas about the stable sort. -/

theorem sortByScoreDesc_perm (l : List StoreWithScore) :
    List.Perm (sortByScoreDesc l) l :=
  List.perm_insertionSort scoreOrder l

theorem sortByScoreDesc_sorted (l : List StoreWithScore) :
    (sortByScoreDesc l).Pairwise scoreOrder :=
  List.sorted_insertionSort scoreOrder l

theorem filter_score_orderedInsert (q : ℚ) (a : StoreWithScore) (l : List StoreWithScore) :
    (List.orderedInsert scoreOrder a l).filter (fun s => decide (s.score = q))
      = if a.score = q
        then a :: l.filter (fun s => decide (s.score = q))
        else l.filter (fun s => decide (s.score = q)) := by
  induction l with
  | nil =>
    by_cases h : a.score = q <;> simp [List.orderedInsert, h]
  | cons b l ih =>
    by_cases hab : scoreOrder a b
    · rw [List.orderedInsert, if_pos hab]
      by_cases h : a.score = q <;> simp [h, List.filter_cons]
    · rw [List.orderedInsert, if_neg hab]
      have hba : a.score < b.score := lt_of_not_le hab
      by_cases h : a.score = q
      · have hbq : ¬(b.score = q) := by
          intro hb
          exact absurd (h ▸ hba) (by simp [hb])
        simp [List.filter_cons, hbq, ih, h]
      · simp [List.filter_cons, ih, h]

theorem sortByScoreDesc_filter (q : ℚ) (l : List StoreWithScore) :
    (sortByScoreDesc l).filter (fun s => decide (s.score = q))
      = l.filter (fun s => decide (s.score = q)) := by
  induction l with
  | nil => rfl
  | cons a l ih =>
    show (List.orderedInsert scoreOrder a (sortByScoreDesc l)).filter _ = _
    rw [filter_score_orderedInsert]
    by_cases h : a.score = q <;> simp [h, List.filter_cons, ih]

/-! Helper lemmas about first-occurrence de-duplication. -/

theorem dedupFirst_append_singleton (l : List String) (x : String) :
    dedupFirst (l ++ [x])
      = if x ∈ dedupFirst l then dedupFirst l else dedupFirst l ++ [x] := by
  unfold dedupFirst
  rw [List.foldl_append]
  rfl

theorem mem_dedupFirst_aux (l : List String) :
    ∀ (acc : List String) (y : String),
      (y ∈ l.foldl (fun acc x => if x ∈ acc then acc else acc ++ [x]) acc)
        ↔ y ∈ acc ∨ y ∈ l := by
  induction l with
  | nil => intro acc y; simp
  | cons x l ih =>
    intro acc y
    rw [List.foldl_cons, ih]
    by_cases hx : x ∈ acc
    · simp only [if_pos hx, List.mem_cons]
      constructor
      · rintro (h | h)
        · exact Or.inl h
        · exact Or.inr (Or.inr h)
      · rintro (h | h | h)
        · exact Or.inl h
        · exact Or.inl (h ▸ hx)
        · exact Or.inr h
    · simp only [if_neg hx, List.mem_append, List.mem_singleton, List.mem_cons]
      tauto

theorem mem_dedupFirst {l : List String} {y : String} :
    y ∈ dedupFirst l ↔ y ∈ l := by
  unfold dedupFirst
  rw [mem_dedupFirst_aux]
  simp

theorem nodup_dedupFirst_aux (l : List String) :
    ∀ acc : List String, acc.Nodup →
      (l.foldl (fun acc x => if x ∈ acc then acc else acc ++ [x]) acc).Nodup := by
  induction l with
  | nil => intro acc h; exact h
  | cons x l ih =>
    intro acc hacc
    rw [List.foldl_cons]
    apply ih
    by_cases hx : x ∈ acc
    · simpa [hx] using hacc
    · simp [hx, List.nodup_append, hacc]

theorem nodup_dedupFirst (l : List String) : (dedupFirst l).Nodup :=
  nodup_dedupFirst_aux l [] List.nodup_nil

/-! Helper lemmas about the grouping loop. -/

theorem pushToGroup_of_not_mem {c : String} {gs : List (String × List StoreWithScore)}
    (h : c ∉ gs.map Prod.fst) (s : StoreWithScore) :
    pushToGroup c s gs = gs ++ [(c, [s])] := by
  induction gs with
  | nil => rfl
  | cons g rest ih =>
    obtain ⟨c', ss⟩ := g
    simp only [List.map_cons, List.mem_cons, not_or] at h
    rw [pushToGroup, if_neg (fun he => h.1 he.symm)]
    rw [ih h.2]
    rfl

theorem pushToGroup_of_mem {c : String} {gs : List (String × List StoreWithScore)}
    (hnd : (gs.map Prod.fst).Nodup) (hc : c ∈ gs.map Prod.fst) (s : StoreWithScore) :
    pushToGroup c s gs
      = gs.map (fun g => if g.1 = c then (g.1, g.2 ++ [s]) else g) := by
  induction gs with
  | nil => simp at hc
  | cons g rest ih =>
    obtain ⟨c', ss⟩ := g
    simp only [List.map_cons, List.nodup_cons] at hnd
    rw [List.map_cons] at hc
    rcases List.mem_cons.mp hc with h | h
    · have h' : c = c' := h
      rw [pushToGroup, if_pos h'.symm]
      have hrest : rest.map (fun g => if g.1 = c then (g.1, g.2 ++ [s]) else g) = rest := by
        have hpt : ∀ g ∈ rest, (if g.1 = c then (g.1, g.2 ++ [s]) else g) = id g := by
          intro g hg
          have hgc : g.1 ≠ c := by
            intro he
            apply hnd.1
            rw [← h', ← he]
            exact List.mem_map_of_mem Prod.fst hg
          simp [hgc]
        rw [List.map_congr_left hpt, List.map_id]
      rw [List.map_cons, hrest, if_pos h'.symm]
    · have hne : c' ≠ c := fun he => hnd.1 (he ▸ h)
      rw [pushToGroup, if_neg hne]
      simp [hne, ih hnd.2 h]

theorem groupsOf_append_singleton (l : List StoreWithScore) (s : StoreWithScore) :
    groupsOf (l ++ [s]) = pushToGroup s.toStore.category s (groupsOf l) := by
  unfold groupsOf
  rw [List.foldl_append]
  rfl

theorem keys_map_mk (cs : List String) (F : String → List StoreWithScore) :
    (cs.map (fun c => (c, F c))).map Prod.fst = cs := by
  simp [List.map_map, Function.comp_def]

theorem groupsOf_eq (l : List StoreWithScore) :
    groupsOf l
      = (dedupFirst (l.map (fun s => s.toStore.category))).map
          (fun c => (c, l.filter (fun s => decide (s.toStore.category = c)))) := by
  induction l using List.reverseRecOn with
  | nil => rfl
  | append_singleton l s ih =>
    rw [groupsOf_append_singleton, ih, List.map_append, List.map_singleton,
      dedupFirst_append_singleton]
    by_cases h : s.toStore.category ∈ l.map (fun s => s.toStore.category)
    · rw [if_pos (mem_dedupFirst.mpr h)]
      rw [pushToGroup_of_mem (by rw [keys_map_mk]; exact nodup_dedupFirst _)
        (by rw [keys_map_mk]; exact mem_dedupFirst.mpr h) s]
      rw [List.map_map]
      apply List.map_congr_left
      intro c hc
      simp only [Function.comp_apply]
      by_cases hcc : c = s.toStore.category
      · subst hcc
        simp [List.filter_append]
      · have hsc : ¬(s.toStore.category = c) := fun he => hcc he.symm
        simp [hcc, hsc, List.filter_append]
    · rw [if_neg (fun hm => h (mem_dedupFirst.mp hm))]
      rw [pushToGroup_of_not_mem
        (by rw [keys_map_mk]; exact fun hm => h (mem_dedupFirst.mp hm)) s]
      rw [List.map_append, List.map_singleton]
      congr 1
      · apply List.map_congr_left
        intro c hc
        have hcl : c ∈ l.map (fun s => s.toStore.category) := mem_dedupFirst.mp hc
        have hsc : ¬(s.toStore.category = c) := fun he => h (he ▸ hcl)
        simp [hsc, List.filter_append]
      · have hfl : l.filter (fun t => decide (t.toStore.category = s.toStore.category)) = [] := by
          rw [List.filter_eq_nil_iff]
          intro t ht hp
          exact h (by
            have : t.toStore.category = s.toStore.category := by simpa using hp
            rw [← this]
            exact List.mem_map_of_mem _ ht)
        simp [List.filter_append, hfl]

theorem flatten_pushToGroup (c : String) (s : StoreWithScore)
    (gs : List (String × List StoreWithScore)) :
    List.Perm ((pushToGroup c s gs).map Prod.snd).flatten
      (((gs.map Prod.snd).flatten) ++ [s]) := by
  induction gs with
  | nil => simp [pushToGroup]
  | cons g rest ih =>
    obtain ⟨c', ss⟩ := g
    by_cases h : c' = c
    · rw [pushToGroup, if_pos h]
      simp only [List.map_cons, List.flatten_cons, List.append_assoc]
      exact List.Perm.append_left ss List.perm_append_comm
    · rw [pushToGroup, if_neg h]
      simp only [List.map_cons, List.flatten_cons, List.append_assoc]
      exact List.Perm.append_left ss ih

theorem flatten_groupsOf (l : List StoreWithScore) :
    List.Perm ((groupsOf l).map Prod.snd).flatten l := by
  induction l using List.reverseRecOn with
  | nil => rfl
  | append_singleton l s ih =>
    rw [groupsOf_append_singleton]
    exact (flatten_pushToGroup _ _ _).trans (ih.append_right [s])

/-! Helper lemmas about the best-similarity fold. -/

theorem foldl_max_max (l : List ℚ) :
    ∀ a b : ℚ, l.foldl max (max a b) = max a (l.foldl max b) := by
  induction l with
  | nil => intro a b; rfl
  | cons c l ih =>
    intro a b
    rw [List.foldl_cons, List.foldl_cons, max_assoc, ih]

theorem foldl_best_eq (sqrt : ℚ → ℚ) (qv : List ℚ) :
    ∀ (l : List ProductEmbedding) (a : ℚ),
      l.foldl
        (fun best pe =>
          let similarity := cosineSimilarity sqrt (some qv) (some pe.embedding)
          if similarity > best then similarity else best)
        a
      = (l.map (fun pe => cosineSimilarity sqrt (some qv) (some pe.embedding))).foldl max a := by
  intro l
  induction l with
  | nil => intro a; rfl
  | cons pe l ih =>
    intro a
    rw [List.foldl_cons, List.map_cons, List.foldl_cons, ← ih]
    congr 1
    show (if cosineSimilarity sqrt (some qv) (some pe.embedding) > a
          then cosineSimilarity sqrt (some qv) (some pe.embedding) else a)
        = max a (cosineSimilarity sqrt (some qv) (some pe.embedding))
    rcases lt_or_le a (cosineSimilarity sqrt (some qv) (some pe.embedding)) with h | h
    · rw [if_pos h, max_eq_right (le_of_lt h)]
    · rw [if_neg (not_lt.mpr h), max_eq_left h]

theorem foldl_max_zero_eq (l : List ℚ) :
    l.foldl max 0 = max 0 (specBestSimilarity l) := by
  cases l with
  | nil => simp [specBestSimilarity]
  | cons s rest =>
    show rest.foldl max (max 0 s) = max 0 (specBestSimilarity (s :: rest))
    rw [foldl_max_max]
    rfl

theorem bestProductSimilarity_eq_clamped_max (sqrt : ℚ → ℚ) (qv : List ℚ) (store : Store) :
    bestProductSimilarity sqrt qv store
      = max 0 (specBestSimilarity (store.product_embeddings.map
          (fun pe => cosineSimilarity sqrt (some qv) (some pe.embedding)))) := by
  unfold bestProductSimilarity
  rw [foldl_best_eq, foldl_max_zero_eq]

/-! Helper lemmas about the category-score lookup. -/

theorem categoryScoresPairs_cons (l : String) (ls : List String) (s : List ℚ) :
    categoryScoresPairs ⟨l :: ls, s⟩
      = (l, s[0]?) :: categoryScoresPairs ⟨ls, s.tail⟩ := by
  unfold categoryScoresPairs
  rw [List.enum_cons']
  rw [List.map_cons, List.map_map]
  congr 1
  apply List.map_congr_left
  intro p _
  simp only [Function.comp_apply, Prod.map_apply, id_eq]
  congr 1
  cases s with
  | nil => simp
  | cons a t => simp

theorem keys_categoryScoresPairs (ls : List String) (s : List ℚ) :
    (categoryScoresPairs ⟨ls, s⟩).map Prod.fst = ls := by
  unfold categoryScoresPairs
  rw [List.map_map]
  have : (Prod.fst ∘ fun p : ℕ × String => (p.2, s[p.1]?)) = Prod.snd := rfl
  rw [this, List.enum_map_snd]

theorem jsMapGet_eq_none {α : Type} {ps : List (String × α)} {k : String}
    (h : k ∉ ps.map Prod.fst) : jsMapGet ps k = none := by
  unfold jsMapGet
  cases hf : ps.reverse.find? (fun p => p.1 == k) with
  | none => rfl
  | some p =>
    exfalso
    have hm : p ∈ ps := List.mem_reverse.mp (List.mem_of_find?_eq_some hf)
    have hp : p.1 = k := by simpa using List.find?_some hf
    exact h (hp ▸ List.mem_map_of_mem Prod.fst hm)

theorem jsMapGet_cons_ne {α : Type} (p : String × α) (ps : List (String × α)) {k : String}
    (h : p.1 ≠ k) : jsMapGet (p :: ps) k = jsMapGet ps k := by
  unfold jsMapGet
  rw [List.reverse_cons, List.find?_append]
  have hb : (p.1 == k) = false := beq_eq_false_iff_ne.mpr h
  have hfind : List.find? (fun p => p.1 == k) [p] = none := by
    simp [List.find?, hb]
  rw [hfind, Option.or_none]

theorem jsMapGet_cons_self {α : Type} (v : α) (ps : List (String × α)) {k : String}
    (h : k ∉ ps.map Prod.fst) : jsMapGet ((k, v) :: ps) k = some v := by
  unfold jsMapGet
  rw [List.reverse_cons, List.find?_append]
  have hn : ps.reverse.find? (fun p => p.1 == k) = none := by
    have := @jsMapGet_eq_none α ps k h
    unfold jsMapGet at this
    cases hf : ps.reverse.find? (fun p => p.1 == k) with
    | none => rfl
    | some p => rw [hf] at this; simp at this
  rw [hn]
  simp [List.find?]

theorem categoryScoreOf_eq_spec_aux (labels : List String) :
    ∀ (scores : List ℚ) (c : String), labels.Nodup →
      categoryScoreOf ⟨labels, scores⟩ c = specCategoryScore labels scores c := by
  induction labels with
  | nil => intro scores c _; rfl
  | cons l ls ih =>
    intro scores c hnd
    simp only [List.nodup_cons] at hnd
    unfold categoryScoreOf
    rw [categoryScoresPairs_cons]
    by_cases hc : l = c
    · subst hc
      rw [jsMapGet_cons_self _ _ (by rw [keys_categoryScoresPairs]; exact hnd.1)]
      simp [specCategoryScore, List.getD_eq_getElem?_getD]
    · rw [jsMapGet_cons_ne _ _ hc]
      have := ih scores.tail c hnd.2
      unfold categoryScoreOf at this
      rw [this]
      simp [specCategoryScore, hc]

theorem categoryScoreOf_eq_spec (cr : ZeroShotClassificationOutput)
    (hnd : cr.labels.Nodup) (c : String) :
    categoryScoreOf cr c = specCategoryScore cr.labels cr.scores c := by
  obtain ⟨labels, scores⟩ := cr
  exact categoryScoreOf_eq_spec_aux labels scores c hnd

/-! Helper lemmas about a run of processQuery. -/

theorem processQuery_blank_eq (sqrt : ℚ → ℚ) (sd : List Store) (oracle : InferenceOracle)
    (rand : ℚ) {query : String} (h : isBlank query = true) :
    processQuery sqrt sd oracle rand query = ({ introMessage := promptMessage }, []) := by
  unfold processQuery
  rw [if_pos h]

theorem processQuery_classify_error_eq (sqrt : ℚ → ℚ) (sd : List Store)
    (oracle : InferenceOracle) (rand : ℚ) {query : String} (h : ¬isBlank query = true)
    {e : String} (hc : oracle.classify query (candidateLabels sd) = .error e) :
    processQuery sqrt sd oracle rand query
      = ({ introMessage := troubleMessage }, [.classifyCall query (candidateLabels sd)]) := by
  unfold processQuery
  rw [if_neg h]
  simp only [hc]

theorem processQuery_embed_error_eq (sqrt : ℚ → ℚ) (sd : List Store)
    (oracle : InferenceOracle) (rand : ℚ) {query : String} (h : ¬isBlank query = true)
    {cr : ZeroShotClassificationOutput}
    (hc : oracle.classify query (candidateLabels sd) = .ok cr)
    {e : String} (he : oracle.embed query = .error e) :
    processQuery sqrt sd oracle rand query
      = ({ introMessage := troubleMessage },
         [.classifyCall query (candidateLabels sd), .embedCall query]) := by
  unfold processQuery
  rw [if_neg h]
  simp only [hc, he]

theorem processQuery_ok_eq (sqrt : ℚ → ℚ) (sd : List Store)
    (oracle : InferenceOracle) (rand : ℚ) {query : String} (h : ¬isBlank query = true)
    {cr : ZeroShotClassificationOutput}
    (hc : oracle.classify query (candidateLabels sd) = .ok cr)
    {qv : List ℚ} (he : oracle.embed query = .ok qv) :
    processQuery sqrt sd oracle rand query
      = (if (topStores sqrt cr qv sd).length = 0
         then { introMessage := noMatchMessage }
         else { introMessage := successMessage,
                storeGroups := some (finalStoreGroups (topStores sqrt cr qv sd)) },
         [.classifyCall query (candidateLabels sd), .embedCall query]) := by
  unfold processQuery
  rw [if_neg h]
  simp only [hc, he]
  split <;> rfl

/-! Membership chain: a returned store object is a scored catalog store. -/

theorem mem_survivors_of_mem_topStores {sqrt : ℚ → ℚ} {cr : ZeroShotClassificationOutput}
    {qv : List ℚ} {sd : List Store} {s : StoreWithScore}
    (h : s ∈ topStores sqrt cr qv sd) : s ∈ survivors sqrt cr qv sd := by
  have h1 : s ∈ sortByScoreDesc (survivors sqrt cr qv sd) := List.take_subset 5 _ h
  exact (sortByScoreDesc_perm _).mem_iff.mp h1

theorem mem_survivors_elim {sqrt : ℚ → ℚ} {cr : ZeroShotClassificationOutput}
    {qv : List ℚ} {sd : List Store} {s : StoreWithScore}
    (h : s ∈ survivors sqrt cr qv sd) :
    s ∈ scoredStores sqrt cr qv sd ∧ (1 : ℚ) / 2 < s.score := by
  have hf := List.mem_filter.mp h
  exact ⟨hf.1, of_decide_eq_true hf.2⟩

theorem mem_scoredStores_elim {sqrt : ℚ → ℚ} {cr : ZeroShotClassificationOutput}
    {qv : List ℚ} {sd : List Store} {s : StoreWithScore}
    (h : s ∈ scoredStores sqrt cr qv sd) :
    ∃ st ∈ sd, s = scoreStore sqrt cr qv st := by
  obtain ⟨st, hst, heq⟩ := List.mem_map.mp h
  exact ⟨st, hst, heq.symm⟩

theorem scoreStore_toStore (sqrt : ℚ → ℚ) (cr : ZeroShotClassificationOutput)
    (qv : List ℚ) (st : Store) : (scoreStore sqrt cr qv st).toStore = st := rfl

theorem scoreStore_score? (sqrt : ℚ → ℚ) (cr : ZeroShotClassificationOutput)
    (qv : List ℚ) (st : Store) :
    (scoreStore sqrt cr qv st).score?
      = some (categoryScoreOf cr st.category * (1 + bestProductSimilarity sqrt qv st)) := rfl

theorem finalStoreGroups_eq (tops : List StoreWithScore) :
    finalStoreGroups tops
      = (dedupFirst (tops.map (fun s => s.toStore.category))).map
          (fun c => ⟨c, tops.filter (fun s => decide (s.toStore.category = c))⟩) := by
  unfold finalStoreGroups
  rw [groupsOf_eq, List.map_map]
  rfl

theorem mem_topStores_of_mem_group {tops : List StoreWithScore} {g : StoreGroup}
    {s : StoreWithScore} (hg : g ∈ finalStoreGroups tops) (hs : s ∈ g.stores) :
    s ∈ tops := by
  obtain ⟨⟨c, ss⟩, hmem, rfl⟩ := List.mem_map.mp hg
  have h1 : s ∈ ((groupsOf tops).map Prod.snd).flatten := by
    rw [List.mem_flatten]
    exact ⟨ss, List.mem_map_of_mem Prod.snd hmem, hs⟩
  exact (flatten_groupsOf tops).mem_iff.mp h1

theorem sum_group_sizes (tops : List StoreWithScore) :
    ((finalStoreGroups tops).map (fun g => g.stores.length)).sum = tops.length := by
  unfold finalStoreGroups
  rw [List.map_map]
  have h1 : ((groupsOf tops).map Prod.snd).flatten.length = tops.length :=
    (flatten_groupsOf tops).length_eq
  rw [List.length_flatten, List.map_map] at h1
  exact h1

/-- A successful response carries exactly the groups assembled from the
filtered, sorted, capped store list. -/
theorem storeGroups_eq_finalStoreGroups {sqrt : ℚ → ℚ} {sd : List Store}
    {oracle : InferenceOracle} {rand : ℚ} {query : String}
    {cr : ZeroShotClassificationOutput} {qv : List ℚ} {gs : List StoreGroup}
    (hc : oracle.classify query (candidateLabels sd) = .ok cr)
    (he : oracle.embed query = .ok qv)
    (hgs : (processQuery sqrt sd oracle rand query).1.storeGroups = some gs) :
    gs = finalStoreGroups (topStores sqrt cr qv sd) := by
  by_cases h : isBlank query = true
  · rw [processQuery_blank_eq sqrt sd oracle rand h] at hgs
    simp at hgs
  · rw [processQuery_ok_eq sqrt sd oracle rand h hc he] at hgs
    by_cases h0 : (topStores sqrt cr qv sd).length = 0
    · rw [if_pos h0] at hgs
      simp at hgs
    · rw [if_neg h0] at hgs
      simpa using hgs.symm

/-- C4: `cosineSimilarity(a, b)` returns 0 whenever either vector is
absent/undefined, the lengths differ, or either norm is exactly zero; for
all other pairs it returns the dot product divided by the product of the two
norms.  The model is a total function: no input raises. -/
theorem cosineSimilarity_spec (sqrt : ℚ → ℚ) (a b : List ℚ) :
    (∀ v, cosineSimilarity sqrt none v = 0)
    ∧ (∀ v, cosineSimilarity sqrt v none = 0)
    ∧ (a.length ≠ b.length → cosineSimilarity sqrt (some a) (some b) = 0)
    ∧ (sqrt (dotQ a a) = 0 ∨ sqrt (dotQ b b) = 0 →
        cosineSimilarity sqrt (some a) (some b) = 0)
    ∧ (a.length = b.length → sqrt (dotQ a a) ≠ 0 → sqrt (dotQ b b) ≠ 0 →
        cosineSimilarity sqrt (some a) (some b)
          = dotQ a b / (sqrt (dotQ a a) * sqrt (dotQ b b))) := by
  refine ⟨fun v => rfl, fun v => by cases v <;> rfl, fun h => ?_, fun h => ?_,
    fun hlen h1 h2 => ?_⟩
  · simp [cosineSimilarity, h]
  · by_cases hlen : a.length = b.length
    · simp [cosineSimilarity, hlen, h]
    · simp [cosineSimilarity, hlen]
  · simp [cosineSimilarity, hlen, h1, h2]

theorem cosineSimilarity_spec_witness :
    cosineSimilarity ratSqrt (some [3, 4]) (some [4, 3]) = 24 / 25
    ∧ cosineSimilarity ratSqrt (some [1]) (some [1, 2]) = 0
    ∧ cosineSimilarity ratSqrt (some [0, 0]) (some [1, 1]) = 0 := by
  refine ⟨?_, ?_, ?_⟩
  · have h := (cosineSimilarity_spec ratSqrt [3, 4] [4, 3]).2.2.2.2
      (by decide) (by decide) (by decide)
    rw [h]
    decide
  · exact (cosineSimilarity_spec ratSqrt [1] [1, 2]).2.2.1 (by decide)
  · exact (cosineSimilarity_spec ratSqrt [0, 0] [1, 1]).2.2.2.1 (Or.inl (by decide))

/-- C5: an empty or whitespace-only query yields the prompt-for-input
message, no store groups, and an empty inference-call trace. -/
theorem processQuery_blank_input (sqrt : ℚ → ℚ) (sd : List Store)
    (oracle : InferenceOracle) (rand : ℚ) (query : String)
    (h : isBlank query = true) :
    processQuery sqrt sd oracle rand query
      = ({ introMessage := promptMessage, storeGroups := none }, []) :=
  processQuery_blank_eq sqrt sd oracle rand h

theorem processQuery_blank_input_witness :
    processQuery ratSqrt wCatalog wOracle 0 "  "
      = ({ introMessage := promptMessage, storeGroups := none }, []) :=
  processQuery_blank_input ratSqrt wCatalog wOracle 0 "  " (by decide)

/-- C6: on a non-blank query, a raised fault in the classification or the
embedding call yields the generic trouble message with no store groups; the
response is the same fixed record whatever the error payload `e` is, so no
internal fault detail appears in it, and the model being a total function,
the exception is never re-raised to the caller. -/
theorem processQuery_inference_fault (sqrt : ℚ → ℚ) (sd : List Store)
    (oracle : InferenceOracle) (rand : ℚ) (query : String)
    (h : ¬isBlank query = true) :
    (∀ e, oracle.classify query (candidateLabels sd) = .error e →
        (processQuery sqrt sd oracle rand query).1
          = { introMessage := troubleMessage, storeGroups := none })
    ∧ (∀ cr e, oracle.classify query (candidateLabels sd) = .ok cr →
        oracle.embed query = .error e →
        (processQuery sqrt sd oracle rand query).1
          = { introMessage := troubleMessage, storeGroups := none }) := by
  constructor
  · intro e hc
    rw [processQuery_classify_error_eq sqrt sd oracle rand h hc]
  · intro cr e hc he
    rw [processQuery_embed_error_eq sqrt sd oracle rand h hc he]

theorem processQuery_inference_fault_witness :
    (processQuery ratSqrt wCatalog failOracle 0 "query").1
      = { introMessage := troubleMessage, storeGroups := none }
    ∧ (processQuery ratSqrt wCatalog embedFailOracle 0 "query").1
      = { introMessage := troubleMessage, storeGroups := none } := by
  constructor
  · exact (processQuery_inference_fault ratSqrt wCatalog failOracle 0 "query"
      (by decide)).1 "stack: secret internal detail" rfl
  · exact (processQuery_inference_fault ratSqrt wCatalog embedFailOracle 0 "query"
      (by decide)).2 wCR "embed backend down" rfl rfl

/-- C7: on a non-blank query where both inference calls succeed but no store
survives the `score > 0.5` filter, the function returns normally with the
no-matches message and the `storeGroups` field absent. -/
theorem processQuery_no_survivors (sqrt : ℚ → ℚ) (sd : List Store)
    (oracle : InferenceOracle) (rand : ℚ) (query : String)
    (cr : ZeroShotClassificationOutput) (qv : List ℚ)
    (h : ¬isBlank query = true)
    (hc : oracle.classify query (candidateLabels sd) = .ok cr)
    (he : oracle.embed query = .ok qv)
    (hz : survivors sqrt cr qv sd = []) :
    processQuery sqrt sd oracle rand query
      = ({ introMessage := noMatchMessage, storeGroups := none },
         [.classifyCall query (candidateLabels sd), .embedCall query]) := by
  have htops : topStores sqrt cr qv sd = [] := by
    unfold topStores
    rw [hz]
    rfl
  rw [processQuery_ok_eq sqrt sd oracle rand h hc he, if_pos (by rw [htops]; rfl)]

theorem processQuery_no_survivors_witness :
    processQuery ratSqrt wCatalog lowOracle 0 "query"
      = ({ introMessage := noMatchMessage, storeGroups := none },
         [.classifyCall "query" (candidateLabels wCatalog), .embedCall "query"]) :=
  processQuery_no_survivors ratSqrt wCatalog lowOracle 0 "query"
    ⟨["pharmacy", "restaurant"], [1/10, 1/20]⟩ [1, 0] (by decide) rfl rfl (by decide)

/-- C1 counterexample: with query vector `[-1]` and single product embedding
`[1]` the cosine similarity is `-1`, so on this input the claimed formula
with the true maximum similarity gives `1 * (1 + (-1)) = 0`, while the
fold of lines 102-108 starts at `0` and the score processQuery assigns and
returns is `1 * (1 + 0) = 1`. -/
theorem scoreStore_trueMax_cex :
    (scoreStore ratSqrt cexCR [-1] cexStore).score? = some 1
    ∧ specCategoryScore cexCR.labels cexCR.scores cexStore.category
        * (1 + specBestSimilarity (cexStore.product_embeddings.map
            (fun pe => cosineSimilarity ratSqrt (some [-1]) (some pe.embedding)))) = 0
    ∧ (1 : ℚ) ≠ 0
    ∧ (processQuery ratSqrt [cexStore] cexOracle 0 "query").1
        = { introMessage := successMessage,
            storeGroups := some [⟨"c", [⟨cexStore, some 1⟩]⟩] } := by
  exact ⟨by decide, by decide, by decide, by decide⟩

/-- C1 amended: the composite score processQuery assigns to every catalog
store is `categoryScore * (1 + bestSimilarity)` where `categoryScore` is the
classification score for the store category (0 when the label is absent,
without raising) and `bestSimilarity` is the maximum of `0` and the cosine
similarities with the store product embeddings: negative similarities are
clamped to `0`, and `0` if the store has no product embeddings. -/
theorem scoreStore_score_formula (sqrt : ℚ → ℚ) (cr : ZeroShotClassificationOutput)
    (qv : List ℚ) (sd : List Store) (hnd : cr.labels.Nodup)
    (st : Store) (hst : st ∈ sd) :
    scoreStore sqrt cr qv st
      = ⟨st, some (specCategoryScore cr.labels cr.scores st.category
          * (1 + max 0 (specBestSimilarity (st.product_embeddings.map
              (fun pe => cosineSimilarity sqrt (some qv) (some pe.embedding))))))⟩
    ∧ scoreStore sqrt cr qv st ∈ scoredStores sqrt cr qv sd := by
  constructor
  · unfold scoreStore
    rw [categoryScoreOf_eq_spec cr hnd st.category,
      bestProductSimilarity_eq_clamped_max]
  · exact List.mem_map_of_mem _ hst

theorem scoreStore_score_formula_witness :
    scoreStore ratSqrt wCR [1, 0] wStore1 = ⟨wStore1, some (9/5)⟩
    ∧ scoreStore ratSqrt wCR [1, 0] wStore1 ∈ scoredStores ratSqrt wCR [1, 0] wCatalog := by
  obtain ⟨h1, h2⟩ := scoreStore_score_formula ratSqrt wCR [1, 0] wCatalog
    (by decide) wStore1 (by decide)
  exact ⟨by decide, h2⟩

/-- C2: the assembled `topStores` list is the take-5 prefix of the stable
descending sort of exactly the scored stores with score above `1/2`
(survivors keep catalog order, since `scoredStores` maps over the catalog
and `filter` preserves order): the sort is a permutation of the survivors,
is sorted in non-increasing score order, and is stable (for every score
value, the sublist of stores carrying it is unchanged); consequently the
result has at most 5 elements, each a scored store with score above `1/2`,
and every store in a returned group is one of them. -/
theorem topStores_spec (sqrt : ℚ → ℚ) (cr : ZeroShotClassificationOutput)
    (qv : List ℚ) (sd : List Store) :
    topStores sqrt cr qv sd = (sortByScoreDesc (survivors sqrt cr qv sd)).take 5
    ∧ survivors sqrt cr qv sd
        = (scoredStores sqrt cr qv sd).filter (fun s => decide ((1 : ℚ) / 2 < s.score))
    ∧ List.Perm (sortByScoreDesc (survivors sqrt cr qv sd)) (survivors sqrt cr qv sd)
    ∧ (sortByScoreDesc (survivors sqrt cr qv sd)).Pairwise (fun a b => b.score ≤ a.score)
    ∧ (∀ q : ℚ,
        (sortByScoreDesc (survivors sqrt cr qv sd)).filter (fun s => decide (s.score = q))
          = (survivors sqrt cr qv sd).filter (fun s => decide (s.score = q)))
    ∧ (topStores sqrt cr qv sd).length ≤ 5
    ∧ (∀ s ∈ topStores sqrt cr qv sd,
        (1 : ℚ) / 2 < s.score ∧ s ∈ scoredStores sqrt cr qv sd)
    ∧ (∀ g ∈ finalStoreGroups (topStores sqrt cr qv sd), ∀ s ∈ g.stores,
        (1 : ℚ) / 2 < s.score)
    ∧ ((finalStoreGroups (topStores sqrt cr qv sd)).map (fun g => g.stores.length)).sum
        ≤ 5 := by
  refine ⟨rfl, rfl, sortByScoreDesc_perm _, sortByScoreDesc_sorted _,
    fun q => sortByScoreDesc_filter q _, ?_, ?_, ?_, ?_⟩
  · rw [show topStores sqrt cr qv sd
        = (sortByScoreDesc (survivors sqrt cr qv sd)).take 5 from rfl, List.length_take]
    exact min_le_left _ _
  · intro s hs
    have h1 := mem_survivors_elim (mem_survivors_of_mem_topStores hs)
    exact ⟨h1.2, h1.1⟩
  · intro g hg s hs
    exact (mem_survivors_elim (mem_survivors_of_mem_topStores
      (mem_topStores_of_mem_group hg hs))).2
  · rw [sum_group_sizes]
    rw [show topStores sqrt cr qv sd
        = (sortByScoreDesc (survivors sqrt cr qv sd)).take 5 from rfl, List.length_take]
    exact min_le_left _ _

theorem topStores_spec_witness :
    topStores ratSqrt wCR [1, 0] wCatalog
      = [⟨wStore1, some (9/5)⟩, ⟨wStore3, some (9/5)⟩]
    ∧ (topStores ratSqrt wCR [1, 0] wCatalog).length ≤ 5 :=
  ⟨by decide, (topStores_spec ratSqrt wCR [1, 0] wCatalog).2.2.2.2.2.1⟩

/-- C3: whenever the response carries store groups, the group labels appear
in the order in which each category is first encountered while iterating the
ranked, capped store list, and each group consists of exactly the ranked
stores of its category in ranked order — neither alphabetical nor catalog
order. -/
theorem storeGroups_first_encounter_order (sqrt : ℚ → ℚ) (sd : List Store)
    (oracle : InferenceOracle) (rand : ℚ) (query : String)
    (cr : ZeroShotClassificationOutput) (qv : List ℚ) (gs : List StoreGroup)
    (hc : oracle.classify query (candidateLabels sd) = .ok cr)
    (he : oracle.embed query = .ok qv)
    (hgs : (processQuery sqrt sd oracle rand query).1.storeGroups = some gs) :
    gs.map (fun g => g.category)
        = dedupFirst ((topStores sqrt cr qv sd).map (fun s => s.toStore.category))
    ∧ gs = (dedupFirst ((topStores sqrt cr qv sd).map (fun s => s.toStore.category))).map
          (fun c => ⟨c, (topStores sqrt cr qv sd).filter
              (fun s => decide (s.toStore.category = c))⟩) := by
  have hg2 := storeGroups_eq_finalStoreGroups hc he hgs
  subst hg2
  rw [finalStoreGroups_eq]
  refine ⟨?_, rfl⟩
  rw [List.map_map]
  exact List.map_id _

theorem storeGroups_first_encounter_order_witness :
    ([⟨"pharmacy", [⟨wStore1, some (9/5)⟩, ⟨wStore3, some (9/5)⟩]⟩] : List StoreGroup).map
        (fun g => g.category)
      = dedupFirst ((topStores ratSqrt wCR [1, 0] wCatalog).map
          (fun s => s.toStore.category)) :=
  (storeGroups_first_encounter_order ratSqrt wCatalog wOracle 0 "query" wCR [1, 0]
    [⟨"pharmacy", [⟨wStore1, some (9/5)⟩, ⟨wStore3, some (9/5)⟩]⟩]
    rfl rfl (by decide)).1

/-- C8 counterexample: in a concrete successful run the returned store
object still carries its transient `score` own-property (`score? = some
(9/5)`, not `none`): line 128 pushes the scored objects themselves, and no
stripping happens before the response is returned. -/
theorem storeGroups_score_not_stripped_cex :
    (processQuery ratSqrt wCatalog wOracle 0 "query").1.storeGroups
      = some [⟨"pharmacy", [⟨wStore1, some (9/5)⟩, ⟨wStore3, some (9/5)⟩]⟩]
    ∧ some ((9 : ℚ) / 5) ≠ (none : Option ℚ) := by
  exact ⟨by decide, by decide⟩

/-- C8 amended: every store object in a returned StoreGroup is a scored
store object itself: its `Store` fields are those of a catalog store,
unchanged, and it still carries the transient `score` property, equal to the
composite score computed during ranking — the score is not stripped before
the response is returned. -/
theorem storeGroups_score_retained (sqrt : ℚ → ℚ) (sd : List Store)
    (oracle : InferenceOracle) (rand : ℚ) (query : String)
    (cr : ZeroShotClassificationOutput) (qv : List ℚ) (gs : List StoreGroup)
    (hc : oracle.classify query (candidateLabels sd) = .ok cr)
    (he : oracle.embed query = .ok qv)
    (hgs : (processQuery sqrt sd oracle rand query).1.storeGroups = some gs) :
    ∀ g ∈ gs, ∀ s ∈ g.stores,
      s.toStore ∈ sd
      ∧ s.score? = some (categoryScoreOf cr s.toStore.category
          * (1 + bestProductSimilarity sqrt qv s.toStore)) := by
  intro g hg s hs
  have hg2 := storeGroups_eq_finalStoreGroups hc he hgs
  subst hg2
  have hmem : s ∈ topStores sqrt cr qv sd := mem_topStores_of_mem_group hg hs
  obtain ⟨st, hst, rfl⟩ :=
    mem_scoredStores_elim (mem_survivors_elim (mem_survivors_of_mem_topStores hmem)).1
  exact ⟨hst, rfl⟩

theorem storeGroups_score_retained_witness :
    (⟨wStore1, some (9/5)⟩ : StoreWithScore).toStore ∈ wCatalog
    ∧ (⟨wStore1, some (9/5)⟩ : StoreWithScore).score?
        = some (categoryScoreOf wCR wStore1.category
            * (1 + bestProductSimilarity ratSqrt [1, 0] wStore1)) :=
  storeGroups_score_retained ratSqrt wCatalog wOracle 0 "query" wCR [1, 0]
    [⟨"pharmacy", [⟨wStore1, some (9/5)⟩, ⟨wStore3, some (9/5)⟩]⟩]
    rfl rfl (by decide)
    ⟨"pharmacy", [⟨wStore1, some (9/5)⟩, ⟨wStore3, some (9/5)⟩]⟩ (by decide)
    ⟨wStore1, some (9/5)⟩ (by decide)

/-- C9: processQuery is deterministic: its result does not depend on the
ambient randomness `Math.random()` (modelled by the `rand` parameter, which
`getRandomMessage` would consume but which no path of processQuery ever
uses), so two runs with the same query, catalog and oracle outputs return
the identical response; moreover the intro message of every run is one of
the four fixed string literals. -/
theorem processQuery_deterministic (sqrt : ℚ → ℚ) (sd : List Store)
    (oracle : InferenceOracle) (query : String) (r1 r2 : ℚ) :
    processQuery sqrt sd oracle r1 query = processQuery sqrt sd oracle r2 query
    ∧ ((processQuery sqrt sd oracle r1 query).1.introMessage = promptMessage
       ∨ (processQuery sqrt sd oracle r1 query).1.introMessage = troubleMessage
       ∨ (processQuery sqrt sd oracle r1 query).1.introMessage = noMatchMessage
       ∨ (processQuery sqrt sd oracle r1 query).1.introMessage = successMessage) := by
  refine ⟨rfl, ?_⟩
  by_cases h : isBlank query = true
  · rw [processQuery_blank_eq sqrt sd oracle r1 h]
    exact Or.inl rfl
  · cases hc : oracle.classify query (candidateLabels sd) with
    | error e =>
      rw [processQuery_classify_error_eq sqrt sd oracle r1 h hc]
      exact Or.inr (Or.inl rfl)
    | ok cr =>
      cases he : oracle.embed query with
      | error e =>
        rw [processQuery_embed_error_eq sqrt sd oracle r1 h hc he]
        exact Or.inr (Or.inl rfl)
      | ok qv =>
        rw [processQuery_ok_eq sqrt sd oracle r1 h hc he]
        by_cases h0 : (topStores sqrt cr qv sd).length = 0
        · rw [if_pos h0]
          exact Or.inr (Or.inr (Or.inl rfl))
        · rw [if_neg h0]
          exact Or.inr (Or.inr (Or.inr rfl))

/-- C10: a successful response is well-formed: every group is non-empty, no
category labels two groups, every store sits in the group of its own
category, every returned store object wraps a catalog store, and the group
sizes add up to the number of filtered, capped survivors. -/
theorem storeGroups_well_formed (sqrt : ℚ → ℚ) (sd : List Store)
    (oracle : InferenceOracle) (rand : ℚ) (query : String)
    (cr : ZeroShotClassificationOutput) (qv : List ℚ) (gs : List StoreGroup)
    (hc : oracle.classify query (candidateLabels sd) = .ok cr)
    (he : oracle.embed query = .ok qv)
    (hgs : (processQuery sqrt sd oracle rand query).1.storeGroups = some gs) :
    (∀ g ∈ gs, g.stores ≠ [])
    ∧ (gs.map (fun g => g.category)).Nodup
    ∧ (∀ g ∈ gs, ∀ s ∈ g.stores, s.toStore.category = g.category)
    ∧ (∀ g ∈ gs, ∀ s ∈ g.stores, s.toStore ∈ sd)
    ∧ (gs.map (fun g => g.stores.length)).sum = (topStores sqrt cr qv sd).length := by
  have hg2 := storeGroups_eq_finalStoreGroups hc he hgs
  subst hg2
  refine ⟨?_, ?_, ?_, ?_, sum_group_sizes _⟩
  · intro g hg
    rw [finalStoreGroups_eq] at hg
    obtain ⟨c, hcmem, rfl⟩ := List.mem_map.mp hg
    have hcl : c ∈ (topStores sqrt cr qv sd).map (fun s => s.toStore.category) :=
      mem_dedupFirst.mp hcmem
    obtain ⟨s, hsmem, hsc⟩ := List.mem_map.mp hcl
    intro hemp
    have hsf : s ∈ (topStores sqrt cr qv sd).filter
        (fun s => decide (s.toStore.category = c)) :=
      List.mem_filter.mpr ⟨hsmem, by simp [hsc]⟩
    rw [show ((⟨c, (topStores sqrt cr qv sd).filter
        (fun s => decide (s.toStore.category = c))⟩ : StoreGroup)).stores
        = (topStores sqrt cr qv sd).filter (fun s => decide (s.toStore.category = c))
      from rfl] at hemp
    rw [hemp] at hsf
    exact List.not_mem_nil s hsf
  · rw [finalStoreGroups_eq, List.map_map]
    have hid : ((fun g : StoreGroup => g.category)
        ∘ fun c => (⟨c, (topStores sqrt cr qv sd).filter
            (fun s => decide (s.toStore.category = c))⟩ : StoreGroup))
        = fun c => c := rfl
    rw [hid]
    have hmapid : List.map (fun c : String => c)
        (dedupFirst ((topStores sqrt cr qv sd).map (fun s => s.toStore.category)))
        = dedupFirst ((topStores sqrt cr qv sd).map (fun s => s.toStore.category)) :=
      List.map_id _
    rw [hmapid]
    exact nodup_dedupFirst _
  · intro g hg s hs
    rw [finalStoreGroups_eq] at hg
    obtain ⟨c, hcmem, rfl⟩ := List.mem_map.mp hg
    have hsf := List.mem_filter.mp hs
    simpa using hsf.2
  · intro g hg s hs
    obtain ⟨st, hst, rfl⟩ := mem_scoredStores_elim
      (mem_survivors_elim (mem_survivors_of_mem_topStores
        (mem_topStores_of_mem_group hg hs))).1
    exact hst

theorem storeGroups_well_formed_witness :
    (([⟨"pharmacy", [⟨wStore1, some (9/5)⟩, ⟨wStore3, some (9/5)⟩]⟩] : List StoreGroup).map
        (fun g => g.category)).Nodup
    ∧ (([⟨"pharmacy", [⟨wStore1, some (9/5)⟩, ⟨wStore3, some (9/5)⟩]⟩] : List StoreGroup).map
        (fun g => g.stores.length)).sum
      = (topStores ratSqrt wCR [1, 0] wCatalog).length := by
  obtain ⟨-, h2, -, -, h5⟩ := storeGroups_well_formed ratSqrt wCatalog wOracle 0 "query"
    wCR [1, 0] [⟨"pharmacy", [⟨wStore1, some (9/5)⟩, ⟨wStore3, some (9/5)⟩]⟩]
    rfl rfl (by decide)
  exact ⟨h2, h5⟩
